import Mathlib

/-!
Shallow embedding of the ResQVision temporal-fusion core (risk fusion,
detection confirmation window, EMA confidence smoothing, crowd density
estimation, breathing analysis, micro-motion detection) over exact
rational/integer arithmetic, together with theorems settling the frozen
claims about the code.

External library calls (YOLO inference, OpenCV colour conversion, Canny
edge detection, Farneback optical flow, numpy FFT) are out-of-scope
collaborators: they enter the embedding as abstract inputs or function
parameters, while every piece of arithmetic and control flow written in
the repository itself is translated directly.
-/

namespace ResQVision

/-- Truncation toward zero, as Python int() applied to a real value. -/
def pyInt (q : ℚ) : ℤ := if 0 ≤ q then ⌊q⌋ else ⌈q⌉

/-- Nearest integer with ties to even, as Python round(x). -/
def pyRound (q : ℚ) : ℤ :=
  if q - ⌊q⌋ < 1/2 then ⌊q⌋
  else if 1/2 < q - ⌊q⌋ then ⌊q⌋ + 1
  else if ⌊q⌋ % 2 = 0 then ⌊q⌋ else ⌊q⌋ + 1

/-- Python round(x, 4): round to four decimal places, ties to even. -/
def round4 (q : ℚ) : ℚ := (pyRound (q * 10000) : ℚ) / 10000

/-- Python round(x, 1): round to one decimal place, ties to even. -/
def round1 (q : ℚ) : ℚ := (pyRound (q * 10) : ℚ) / 10

/-- collections.deque append with a maxlen bound: keep the newest
maxlen entries, evicting from the front. -/
def dequePush {α : Type} (maxlen : ℕ) (h : List α) (x : α) : List α :=
  let h2 := h ++ [x]
  h2.drop (h2.length - maxlen)

/-- Insertion of an element into an ascending list. -/
def insertAsc (x : ℕ) : List ℕ → List ℕ
  | [] => [x]
  | y :: ys => if x ≤ y then x :: y :: ys else y :: insertAsc x ys

/-- Ascending insertion sort (the sorted order np.median works on). -/
def sortAsc (l : List ℕ) : List ℕ := l.foldr insertAsc []

/-- np.mean of a list of scalars. -/
def listMean (l : List ℚ) : ℚ := l.sum / l.length

/-- Python max(..., default=0): maximum of a list, 0 when empty. -/
def maxD0 : List ℚ → ℚ
  | [] => 0
  | c :: cs => cs.foldl max c

/-- np.median of a list of natural numbers: middle element of the sorted
list when the length is odd, mean of the two middle elements when even.
(np.median of an empty array is NaN; the code never reaches that case,
and the embedding returns 0 there.) -/
def npMedian (l : List ℕ) : ℚ :=
  let s := sortAsc l
  let n := s.length
  if n = 0 then 0
  else if n % 2 = 1 then (s.getD (n / 2) 0 : ℚ)
  else ((s.getD (n / 2 - 1) 0 : ℚ) + (s.getD (n / 2) 0 : ℚ)) / 2

/-! ## RiskAgent (src/ResQVision/agents/risk_agent.py) -/

/-- Input record for RiskAgent.assess: the aggregated per-frame data
dict, with each key the code reads (defaults already applied). -/
structure RiskData where
  survivor_count : ℕ
  confidence_score : ℚ
  flood_risk : Bool
  water_coverage : ℚ
  fire_risk : Bool
  fire_coverage : ℚ
  crowd_density : ℚ
  micro_motion_confidence : ℚ
  is_heavy_crowd_mode : Bool

/-- Output of RiskAgent.assess. -/
structure Assessment where
  risk_level : String
  risk_score : ℤ
  breakdown : List (String × ℚ)
deriving DecidableEq

namespace RiskAgent

/-- RiskAgent.WEIGHTS (class constant), as an association list. -/
def WEIGHTS : List (String × ℚ) :=
  [("survivor_count", 15/100),
   ("confidence_score", 5/100),
   ("flood_risk", 15/100),
   ("fire_risk", 20/100),
   ("crowd_density", 30/100),
   ("micro_motion_confidence", 15/100)]

/-- RiskAgent.THRESHOLDS (class constant). -/
def THRESHOLDS : List (ℤ × String) :=
  [(80, "CRITICAL"), (55, "HIGH"), (30, "MEDIUM"), (0, "LOW")]

/-- The descending threshold lookup at the end of assess: risk_level
starts at LOW and the first threshold ≤ score wins. -/
def lookupLevel (score : ℤ) : String :=
  ((THRESHOLDS.find? (fun p => decide (p.1 ≤ score))).map Prod.snd).getD "LOW"

/-- RiskAgent.assess, translated line by line: normalisation, the
weighted sum scaled to 0..100, the three extreme-environment additions
applied sequentially, final clamping to [0,100], and the level lookup. -/
def assess (d : RiskData) : Assessment :=
  let surv_norm : ℚ := min ((d.survivor_count : ℚ) / 10) 1
  let conf := d.confidence_score
  let flood : ℚ := if d.flood_risk then 1 else 0
  let fire : ℚ := if d.fire_risk then 1 else 0
  let crowd := d.crowd_density
  let motion := d.micro_motion_confidence
  let breakdown : List (String × ℚ) :=
    [("survivor_count", round1 (surv_norm * 100)),
     ("confidence_score", round1 (conf * 100)),
     ("flood_risk", round1 (flood * 100)),
     ("fire_risk", round1 (fire * 100)),
     ("crowd_density", round1 (crowd * 100)),
     ("micro_motion_confidence", round1 (motion * 100))]
  let raw_score : ℚ :=
    15/100 * surv_norm + 5/100 * conf + 15/100 * flood
      + 20/100 * fire + 30/100 * crowd + 15/100 * motion
  let score0 : ℤ := pyRound (raw_score * 100)
  let score1 : ℤ :=
    if 0 < flood ∧ 30/100 < d.water_coverage then
      score0 + pyInt (min (d.water_coverage * 100) 50)
    else score0
  let score2 : ℤ :=
    if 0 < fire then score1 + pyInt (min (d.fire_coverage * 150) 60) else score1
  let score3 : ℤ :=
    if d.is_heavy_crowd_mode ∧ 4/10 < crowd then
      score2 + pyInt (min (crowd * 100) 60)
    else score2
  let risk_score := max 0 (min 100 score3)
  { risk_level := lookupLevel risk_score,
    risk_score := risk_score,
    breakdown := breakdown }

/-- Claim-side view: the weighted base score of assess on its own. -/
def baseScore (d : RiskData) : ℤ :=
  pyRound ((15/100 * min ((d.survivor_count : ℚ) / 10) 1
    + 5/100 * d.confidence_score
    + 15/100 * (if d.flood_risk then (1:ℚ) else 0)
    + 20/100 * (if d.fire_risk then (1:ℚ) else 0)
    + 30/100 * d.crowd_density
    + 15/100 * d.micro_motion_confidence) * 100)

/-- Claim-side view: the flood hazard override on its own. -/
def floodOverride (d : RiskData) : ℤ :=
  if d.flood_risk ∧ 30/100 < d.water_coverage then
    pyInt (min (d.water_coverage * 100) 50)
  else 0

/-- Claim-side view: the fire hazard override on its own. -/
def fireOverride (d : RiskData) : ℤ :=
  if d.fire_risk then pyInt (min (d.fire_coverage * 150) 60) else 0

/-- Claim-side view: the heavy-crowd hazard override on its own. -/
def crowdOverride (d : RiskData) : ℤ :=
  if d.is_heavy_crowd_mode ∧ 4/10 < d.crowd_density then
    pyInt (min (d.crowd_density * 100) 60)
  else 0

end RiskAgent

/-! ## DetectionEngine (src/ResQVision/detection_engine.py) -/

/-- Constructor parameters of DetectionEngine that the confirmation and
smoothing logic reads (the model path, confidence threshold and log
directory feed only the external YOLO call and the out-of-scope
logging). -/
structure EngineConfig where
  confirmation_window : ℕ
  confirmation_min : ℕ
  ema_alpha : ℚ
deriving DecidableEq

/-- The mutable state of a DetectionEngine instance: the sliding
history deque, the EMA-smoothed confidence, the frame counter and the
last confirmed count. -/
structure EngineState where
  history : List (ℕ × ℚ)
  smoothed_confidence : ℚ
  frame_idx : ℕ
  confirmed_count : ℤ
deriving DecidableEq

/-- The state straight after DetectionEngine.__init__. -/
def freshEngine : EngineState :=
  { history := [], smoothed_confidence := 0, frame_idx := 0, confirmed_count := 0 }

/-- The per-frame output of DetectionEngine.detect that the claims
concern (bboxes and centroids are passed through from the external
detector and omitted). -/
structure DetectResult where
  survivor_count : ℤ
  raw_count : ℕ
  confidence_score : ℚ
  confirmed : Bool
  frame_index : ℕ
deriving DecidableEq

/-- DetectionEngine.detect with the external YOLO inference abstracted
into its outputs (raw_count, avg_conf): the history append, photo-mode
bypass, multi-frame confirmation with median count, EMA smoothing and
state updates are translated directly.  Snapshot and CSV logging are
out-of-scope I/O and omitted. -/
def detectStep (cfg : EngineConfig) (st : EngineState) (raw_count : ℕ)
    (avg_conf : ℚ) ( is_photo : Bool) : DetectResult × EngineState :=
  let frame_idx := st.frame_idx + 1
  let history := dequePush cfg.confirmation_window st.history (raw_count, avg_conf)
  let cc : Bool × ℤ :=
    if is_photo then (true, (raw_count : ℤ))
    else
      let frames_with_detections := (history.filter (fun p => decide (0 < p.1))).length
      if cfg.confirmation_min ≤ frames_with_detections then
        (true, pyInt (npMedian ((history.filter (fun p => decide (0 < p.1))).map Prod.fst)))
      else (false, 0)
  let smoothed := cfg.ema_alpha * avg_conf + (1 - cfg.ema_alpha) * st.smoothed_confidence
  ({ survivor_count := cc.2, raw_count := raw_count,
     confidence_score := round4 smoothed, confirmed := cc.1,
     frame_index := frame_idx },
   { history := history, smoothed_confidence := smoothed,
     frame_idx := frame_idx, confirmed_count := cc.2 })

/-- Run detect over a sequence of frames, each abstracted to
(raw_count, avg_conf, is_photo); returns the last call's result (a
dummy all-zero result when the sequence is empty) and the final state.
-/
def runDetect (cfg : EngineConfig) (st : EngineState)
    (inputs : List (ℕ × ℚ × Bool)) : DetectResult × EngineState :=
  inputs.foldl (fun acc inp => detectStep cfg acc.2 inp.1 inp.2.1 inp.2.2)
    ({ survivor_count := 0, raw_count := 0, confidence_score := 0,
       confirmed := false, frame_index := st.frame_idx }, st)

/-- DetectionEngine.__init__ as seen by the configuration-validation
claim: the repository performs no validation of its own; the only
construction-time failure is the ValueError collections.deque raises
for a negative maxlen, so the window parameter is taken as a signed
integer here.  Model loading and log-directory creation touch only
out-of-scope collaborators and are omitted. -/
def mkDetectionEngine (confirmation_window : ℤ) (confirmation_min : ℕ)
    (ema_alpha : ℚ) : Except String (EngineConfig × EngineState) :=
  if confirmation_window < 0 then Except.error "maxlen must be non-negative"
  else Except.ok ({ confirmation_window := confirmation_window.toNat,
                    confirmation_min := confirmation_min,
                    ema_alpha := ema_alpha }, freshEngine)

/-- Whether a construction attempt succeeded. -/
def constructionOk {ε α : Type} : Except ε α → Bool
  | Except.ok _ => true
  | Except.error _ => false

/-- Claim-side view: the non-zero raw counts in the window after this
frame's entry has been appended. -/
def windowNonzeroCounts (cfg : EngineConfig) (st : EngineState)
    (raw_count : ℕ) (avg_conf : ℚ) : List ℕ :=
  ((dequePush cfg.confirmation_window st.history (raw_count, avg_conf)).filter
    (fun p => decide (0 < p.1))).map Prod.fst

/-- The default configuration: window 20, confirmation_min 15,
EMA alpha 0.3. -/
def cfg20 : EngineConfig :=
  { confirmation_window := 20, confirmation_min := 15, ema_alpha := 3/10 }

/-- The C2 scenario: fifteen streaming frames with five detections each
followed by five streaming frames with none. -/
def c2Inputs : List (ℕ × ℚ × Bool) :=
  List.replicate 15 (5, 1, false) ++ List.replicate 5 (0, 0, false)

/-- Fourteen streaming frames with detections, one photo frame with a
detection, then a streaming frame with none. -/
def c9WithPhoto : List (ℕ × ℚ × Bool) :=
  List.replicate 14 (5, 1, false) ++ [(5, 1, true)] ++ [(0, 0, false)]

/-- The same sequence with the photo frame dropped. -/
def c9WithoutPhoto : List (ℕ × ℚ × Bool) :=
  List.replicate 14 (5, 1, false) ++ [(0, 0, false)]

/-- A state already holding fifteen frames of five detections each,
used to exercise the confirmed branch of the confirmation logic. -/
def busyEngine : EngineState :=
  { history := List.replicate 15 (5, 1), smoothed_confidence := 0,
    frame_idx := 15, confirmed_count := 0 }

/-! ## CrowdMonitor (src/ResQVision/crowd_monitor.py) -/

/-- A detection rectangle (x1, y1, x2, y2) with its confidence. -/
structure Bbox where
  x1 : ℤ
  y1 : ℤ
  x2 : ℤ
  y2 : ℤ
  conf : ℚ
deriving DecidableEq

/-- The raw frame as the edge-density fallback path sees it: its pixel
dimensions and the number of non-zero pixels the external blur-and-Canny
step finds in it. -/
structure FrameEdges where
  h : ℕ
  w : ℕ
  edge_pixels : ℕ
deriving DecidableEq

/-- Output of CrowdMonitor.estimate. -/
structure CrowdResult where
  crowd_density : ℚ
  person_count : ℕ
  occupied_area_ratio : ℚ
deriving DecidableEq

namespace CrowdMonitor

/-- The edge-density measurement inside estimate: the fraction of edge
pixels, normalised against a 10% reference and capped at 1; zero when
no frame image is supplied. -/
def edgeDensity : Option FrameEdges → ℚ
  | none => 0
  | some fr => min ((fr.edge_pixels : ℚ) / ((fr.h : ℚ) * fr.w * (10/100))) 1

/-- CrowdMonitor.estimate: count-based and area-based densities
combined 60/40, with the edge-density fallback override, translated
directly; frame_area is the instance field, recalculated when a
frame_shape is passed. -/
def estimate (frame_area : ℤ) (max_expected_persons : ℕ) (bboxes : List Bbox)
    (frame_shape : Option (ℕ × ℕ)) (frame : Option FrameEdges) : CrowdResult :=
  let edge_density := edgeDensity frame
  let area : ℤ := match frame_shape with
    | some s => (s.1 : ℤ) * s.2
    | none => frame_area
  let count := bboxes.length
  let occupied : ℕ :=
    (bboxes.map (fun b => (b.x2 - b.x1).natAbs * (b.y2 - b.y1).natAbs)).sum
  let area_ratio : ℚ := if 0 < area then min ((occupied : ℚ) / (area : ℚ)) 1 else 0
  let count_ratio : ℚ := min ((count : ℚ) / (max_expected_persons : ℚ)) 1
  let density0 := 60/100 * count_ratio + 40/100 * area_ratio
  let density :=
    if density0 < 10/100 ∧ 40/100 < edge_density then edge_density * (80/100)
    else density0
  { crowd_density := round4 density, person_count := count,
    occupied_area_ratio := round4 area_ratio }

/-- Claim-side view: the primary density 0.6*count_ratio +
0.4*area_ratio on its own. -/
def primaryDensity (frame_area : ℤ) (max_expected_persons : ℕ) (bboxes : List Bbox)
    (frame_shape : Option (ℕ × ℕ)) : ℚ :=
  let area : ℤ := match frame_shape with
    | some s => (s.1 : ℤ) * s.2
    | none => frame_area
  let count := bboxes.length
  let occupied : ℕ :=
    (bboxes.map (fun b => (b.x2 - b.x1).natAbs * (b.y2 - b.y1).natAbs)).sum
  let area_ratio : ℚ := if 0 < area then min ((occupied : ℚ) / (area : ℚ)) 1 else 0
  let count_ratio : ℚ := min ((count : ℚ) / (max_expected_persons : ℚ)) 1
  60/100 * count_ratio + 40/100 * area_ratio

end CrowdMonitor

/-! ## BreathingAnalyzer (src/ResQVision/breathing_analysis.py) -/

namespace BreathingAnalyzer

/-- Constructor state of BreathingAnalyzer: the frame rate and the
derived per-person ring-buffer capacity int(fps * buffer_seconds). -/
structure Config where
  fps : ℚ
  buffer_size : ℕ
deriving DecidableEq

/-- A per-person result entry. -/
structure PersonConf where
  person_id : ℕ
  breathing_conf : ℚ
deriving DecidableEq

/-- The np.fft.rfftfreq(n, 1/fps) bin frequencies: bin k sits at
k*fps/n Hz. -/
def binFreq (n : ℕ) (fps : ℚ) (k : ℕ) : ℚ := k * fps / n

/-- The breathing-band energy: the sum of the magnitude-spectrum
entries whose bin frequency lies in [0.15, 0.50] Hz. -/
def bandEnergy (fft_vals : List ℚ) (n : ℕ) (fps : ℚ) : ℚ :=
  (((List.range fft_vals.length).filter (fun k =>
      decide (15/100 ≤ binFreq n fps k) && decide (binFreq n fps k ≤ 50/100))).map
    (fun k => fft_vals.getD k 0)).sum

/-- The total non-DC energy, with the code's 1e-9 numerical guard. -/
def totalEnergy (fft_vals : List ℚ) : ℚ := (fft_vals.drop 1).sum + 1/1000000000

/-- The FFT branch of the per-person analysis: remove the DC mean, take
the magnitude spectrum (the external np.fft.rfft call, abstracted as
mag), and divide breathing-band energy by total non-DC energy, capped
at 1. -/
def subjectFFT (cfg : Config) (mag : List ℚ → List ℚ) (buf : List ℚ) : ℚ :=
  let signal := buf.map (fun v => v - listMean buf)
  let fft_vals := mag signal
  min (bandEnergy fft_vals signal.length cfg.fps / totalEnergy fft_vals) 1

/-- The confidence computed for one person from their ring buffer as it
stands after this frame's sample was appended: 0 while the buffer holds
fewer than half its capacity, otherwise the rounded band-energy ratio. -/
def subjectConf (cfg : Config) (mag : List ℚ → List ℚ) (buf : List ℚ) : ℚ :=
  if buf.length < cfg.buffer_size / 2 then 0
  else round4 (subjectFFT cfg mag buf)

/-- The per-person loop of analyse over the enumerated subject list:
idx is the running person index and bufs the per-person buffer map.
A sample of none models a subject whose clamped chest ROI is empty
(reported 0, buffer untouched); some v carries the mean ROI intensity
the external crop produced.  Returns the per-person entries and the
updated buffers. -/
def analyseLoop (cfg : Config) (mag : List ℚ → List ℚ) :
    ℕ → (ℕ → List ℚ) → List (Option ℚ) → List PersonConf × (ℕ → List ℚ)
  | _, bufs, [] => ([], bufs)
  | idx, bufs, none :: rest =>
      let res := analyseLoop cfg mag (idx + 1) bufs rest
      ({ person_id := idx, breathing_conf := 0 } :: res.1, res.2)
  | idx, bufs, some v :: rest =>
      let buf := dequePush cfg.buffer_size (bufs idx) v
      let bufs1 := fun i => if i = idx then buf else bufs i
      let res := analyseLoop cfg mag (idx + 1) bufs1 rest
      ({ person_id := idx, breathing_conf := subjectConf cfg mag buf } :: res.1, res.2)

/-- BreathingAnalyzer.analyse with the frame access abstracted into the
per-person intensity samples: the overall confidence is the rounded
maximum per-person confidence, 0 when the subject list is empty. -/
def analyse (cfg : Config) (mag : List ℚ → List ℚ) (bufs : ℕ → List ℚ)
    (samples : List (Option ℚ)) : (ℚ × List PersonConf) × (ℕ → List ℚ) :=
  let res := analyseLoop cfg mag 0 bufs samples
  ((round4 (maxD0 (res.1.map (fun p => p.breathing_conf))), res.1), res.2)

/-- Claim-side view: the confidence for the subject at one index,
computed directly from that subject's own pre-call buffer. -/
def subjectSpec (cfg : Config) (mag : List ℚ → List ℚ) (buf0 : List ℚ) :
    Option ℚ → ℚ
  | none => 0
  | some v => subjectConf cfg mag (dequePush cfg.buffer_size buf0 v)

/-- A toy all-ones magnitude spectrum of rfft length, standing in for
the external FFT when exercising the analysis on concrete data. -/
def magOnes : List ℚ → List ℚ := fun s => List.replicate (s.length / 2 + 1) 1

end BreathingAnalyzer

/-! ## MicroMotionDetector (src/ResQVision/micro_motion.py) -/

/-- A grayscale image: a matrix of pixel intensities, row-major. -/
abbrev Gray : Type := List (List ℚ)

namespace MicroMotionDetector

/-- The three constructor parameters of MicroMotionDetector, all of
which are stored on the instance. -/
structure Config where
  diff_threshold : ℚ
  flow_mag_thresh : ℚ
  min_motion_pixels : ℕ
deriving DecidableEq

/-- Mutable state: the previous blurred grayscale frame. -/
structure State where
  prev_gray : Option Gray
deriving DecidableEq

/-- The state straight after construction. -/
def freshState : State := { prev_gray := none }

/-- Per-frame result of detect. -/
structure Result where
  micro_motion_confidence : ℚ
  diff_score : ℚ
  flow_score : ℚ
  motion_mask : Option Gray
deriving DecidableEq

/-- shape[0] * shape[1] of a matrix (width read off the first row). -/
def pixelCount (g : Gray) : ℕ := g.length * (g.headD []).length

/-- cv2.absdiff: pointwise absolute difference. -/
def absdiff (a b : Gray) : Gray :=
  List.zipWith (fun r1 r2 => List.zipWith (fun x y => |x - y|) r1 r2) a b

/-- cv2.threshold with THRESH_BINARY: 255 where the value exceeds the
threshold, 0 elsewhere. -/
def threshBinary (t : ℚ) (g : Gray) : Gray :=
  g.map (fun row => row.map (fun x => if t < x then (255 : ℚ) else 0))

/-- np.count_nonzero over a matrix. -/
def countNonzero (g : Gray) : ℕ :=
  (g.map (fun row => (row.filter (fun x => decide (x ≠ 0))).length)).sum

/-- Sum of all entries of a matrix. -/
def matSum (g : Gray) : ℚ := (g.map (fun row => row.sum)).sum

/-- Number of entries of a matrix (np size). -/
def matSize (g : Gray) : ℕ := (g.map (fun row => row.length)).sum

/-- np.mean over all entries of a matrix. -/
def matMean (g : Gray) : ℚ := matSum g / matSize g

/-- The slice mag[y1:y2, x1:x2] after the source's clamping of the box
to bounds: rows max(0,y1) up to min(height,y2), columns max(0,x1) up to
min(width,x2). -/
def roiSlice (g : Gray) (x1 y1 x2 y2 : ℤ) : Gray :=
  ((g.drop (max 0 y1).toNat).take
      (min (g.length : ℤ) y2 - max 0 y1).toNat).map
    (fun row => (row.drop (max 0 x1).toNat).take
      (min ((g.headD []).length : ℤ) x2 - max 0 x1).toNat)

/-- MicroMotionDetector.detect: frame differencing and dense optical
flow combined 50/50 with the noise floor, translated directly.  The
external cv2 calls are abstracted: grayBlur stands for the
cvtColor-plus-GaussianBlur preprocessing of a raw frame, flowMag for
the Farneback flow followed by cartToPolar magnitude. -/
def detect {Frame : Type} (cfg : Config) (grayBlur : Frame → Gray)
    (flowMag : Gray → Gray → Gray) (st : State) (frame : Frame)
    (person_bboxes : List Bbox) : Result × State :=
  let gray := grayBlur frame
  match st.prev_gray with
  | none =>
      ({ micro_motion_confidence := 0, diff_score := 0, flow_score := 0,
         motion_mask := none }, { prev_gray := some gray })
  | some prev =>
      let diff := absdiff prev gray
      let motion_mask := threshBinary cfg.diff_threshold diff
      let diff_pixels := countNonzero motion_mask
      let total_pixels := pixelCount gray
      let diff_score := min ((diff_pixels : ℚ) / max ((total_pixels : ℚ) * (1/100)) 1) 1
      let mag := flowMag prev gray
      let avg_mag : ℚ :=
        if person_bboxes ≠ [] then
          let roi_mags := ((person_bboxes.map
              (fun b => roiSlice mag b.x1 b.y1 b.x2 b.y2)).filter
            (fun roi => decide (0 < matSize roi))).map matMean
          if roi_mags ≠ [] then listMean roi_mags else 0
        else matMean mag
      let flow_score := min (avg_mag / 2) 1
      let confidence : ℚ :=
        if diff_pixels < cfg.min_motion_pixels then 0
        else 1/2 * diff_score + 1/2 * flow_score
      ({ micro_motion_confidence := round4 confidence,
         diff_score := round4 diff_score, flow_score := round4 flow_score,
         motion_mask := some motion_mask },
       { prev_gray := some gray })

/-- Run detect over a sequence of frames with their subject boxes,
collecting every per-frame result and the final state. -/
def runMotion {Frame : Type} (cfg : Config) (grayBlur : Frame → Gray)
    (flowMag : Gray → Gray → Gray) (st : State) :
    List (Frame × List Bbox) → List Result × State
  | [] => ([], st)
  | x :: rest =>
      let r := detect cfg grayBlur flowMag st x.1 x.2
      let rr := runMotion cfg grayBlur flowMag r.2 rest
      (r.1 :: rr.1, rr.2)

/-- A configuration with the default flow magnitude threshold 0.4. -/
def cfgFlowLow : Config :=
  { diff_threshold := 12, flow_mag_thresh := 4/10, min_motion_pixels := 30 }

/-- The same configuration except for the flow magnitude threshold. -/
def cfgFlowHigh : Config :=
  { diff_threshold := 12, flow_mag_thresh := 99, min_motion_pixels := 30 }

end MicroMotionDetector

end ResQVision

namespace ResQVision

lemma pyInt_le_intCast {q : ℚ} {n : ℤ} (h : q ≤ (n : ℚ)) : pyInt q ≤ n := by
  have hceil : ⌈q⌉ ≤ n := Int.ceil_le.mpr h
  unfold pyInt
  split
  · exact le_trans (Int.floor_le_ceil q) hceil
  · exact hceil

namespace RiskAgent

/-- C1: assess computes its score additively-then-clamps: the returned
risk_score is exactly the clamp to [0,100] of the weighted base score
plus the three hazard overrides (flood fires when the flag is set and
water coverage exceeds 0.30, adding min(coverage*100, 50) truncated to
an integer; fire fires whenever flagged, adding min(coverage*150, 60);
heavy-crowd fires when the mode is active and density exceeds 0.4,
adding min(density*100, 60)), and each override is independently capped
(≤ 50, ≤ 60, ≤ 60 respectively); the clamp happens only after all
additions. -/
theorem assess_additive_then_clamp (d : RiskData) :
    (assess d).risk_score
      = max 0 (min 100 (baseScore d + floodOverride d + fireOverride d + crowdOverride d))
    ∧ floodOverride d ≤ 50 ∧ fireOverride d ≤ 60 ∧ crowdOverride d ≤ 60 := by
  refine ⟨?_, ?_, ?_, ?_⟩
  · show max 0 (min 100 _) = max 0 (min 100 _)
    congr 2
    unfold baseScore floodOverride fireOverride crowdOverride
    cases hf : d.flood_risk <;> cases hg : d.fire_risk <;>
      cases hh : d.is_heavy_crowd_mode <;>
      simp [hf, hg, hh] <;> split_ifs <;> simp_all
  · unfold floodOverride
    split
    · exact pyInt_le_intCast (by exact_mod_cast min_le_right _ 50)
    · norm_num
  · unfold fireOverride
    split
    · exact pyInt_le_intCast (by exact_mod_cast min_le_right _ 60)
    · norm_num
  · unfold crowdOverride
    split
    · exact pyInt_le_intCast (by exact_mod_cast min_le_right _ 60)
    · norm_num

end RiskAgent

lemma detectFold_snd_ignores_fst (cfg : EngineConfig) (inputs : List (ℕ × ℚ × Bool)) :
    ∀ a b : DetectResult × EngineState, a.2 = b.2 →
      (inputs.foldl (fun acc inp => detectStep cfg acc.2 inp.1 inp.2.1 inp.2.2) a).2
        = (inputs.foldl (fun acc inp => detectStep cfg acc.2 inp.1 inp.2.1 inp.2.2) b).2 := by
  induction inputs with
  | nil => intro a b h; exact h
  | cons x xs ih => intro a b h; exact ih _ _ (by simp only [h])

lemma runDetect_state_cons (cfg : EngineConfig) (st : EngineState)
    (x : ℕ × ℚ × Bool) (rest : List (ℕ × ℚ × Bool)) :
    (runDetect cfg st (x :: rest)).2
      = (runDetect cfg (detectStep cfg st x.1 x.2.1 x.2.2).2 rest).2 := by
  unfold runDetect
  rw [List.foldl_cons]
  exact detectFold_snd_ignores_fst cfg rest _ _ rfl

lemma ema_step_bounds {a c s : ℚ} (h0 : 0 ≤ a) (h1 : a ≤ 1) (hc0 : 0 ≤ c)
    (hc1 : c ≤ 1) (hs0 : 0 ≤ s) (hs1 : s ≤ 1) :
    0 ≤ a * c + (1 - a) * s ∧ a * c + (1 - a) * s ≤ 1 := by
  constructor
  · exact add_nonneg (mul_nonneg h0 hc0) (mul_nonneg (by linarith) hs0)
  · nlinarith

/-- C2: with window capacity 20 and confirmation_min 15, pushing
raw_count 5 on frames 1–15 and 0 on frames 16–20 in streaming mode
yields confirmed on frame 20 with confirmed count 5 (the median of the
fifteen non-zero entries in the window); and in general a streaming
detect call reports, when confirmed, the integer part of the median of
the non-zero raw counts in the window, and 0 when not confirmed. -/
theorem detect_median_confirmation :
    ((runDetect cfg20 freshEngine c2Inputs).1.confirmed = true
      ∧ (runDetect cfg20 freshEngine c2Inputs).1.survivor_count = 5)
    ∧ ∀ (cfg : EngineConfig) (st : EngineState) (raw : ℕ) (conf : ℚ),
        ((detectStep cfg st raw conf false).1.confirmed = true
          → (detectStep cfg st raw conf false).1.survivor_count
              = pyInt (npMedian (windowNonzeroCounts cfg st raw conf)))
        ∧ ((detectStep cfg st raw conf false).1.confirmed = false
          → (detectStep cfg st raw conf false).1.survivor_count = 0) := by
  constructor
  · norm_num [runDetect, detectStep, c2Inputs, cfg20, freshEngine, dequePush,
      npMedian, sortAsc, insertAsc, pyInt, round4, pyRound, List.replicate,
      List.cons_ne_nil, Int.floor_natCast]
  · intro cfg st raw conf
    constructor <;> intro h <;>
      simp only [detectStep, windowNonzeroCounts] at h ⊢ <;>
      split_ifs at h ⊢ <;> simp_all

/-- Witness for C2's general clause: a window of sixteen frames with
five detections each is confirmed and reports the median. -/
theorem detect_median_confirmation_witness :
    ((detectStep cfg20 busyEngine 5 1 false).1.confirmed = true)
    ∧ (detectStep cfg20 busyEngine 5 1 false).1.survivor_count
        = pyInt (npMedian (windowNonzeroCounts cfg20 busyEngine 5 1)) :=
  ⟨by norm_num [detectStep, cfg20, busyEngine, dequePush, List.replicate],
   (detect_median_confirmation.2 cfg20 busyEngine 5 1).1
     (by norm_num [detectStep, cfg20, busyEngine, dequePush, List.replicate])⟩

/-- C5: the smoothed confidence is seeded at 0 at construction, obeys
the EMA recurrence on every call regardless of photo mode or
confirmation state, and with the default alpha 0.3 a fresh engine
reports confidence 0.3 after one call at average confidence 1.0 and
0.51 after a second such call. -/
theorem ema_seed_and_recurrence :
    freshEngine.smoothed_confidence = 0
    ∧ (∀ (cfg : EngineConfig) (st : EngineState) (raw : ℕ) (conf : ℚ) (p : Bool),
        ((detectStep cfg st raw conf p).2).smoothed_confidence
          = cfg.ema_alpha * conf + (1 - cfg.ema_alpha) * st.smoothed_confidence)
    ∧ (runDetect cfg20 freshEngine [(1, 1, false)]).1.confidence_score = 3/10
    ∧ (runDetect cfg20 freshEngine [(1, 1, false), (1, 1, false)]).1.confidence_score
        = 51/100 := by
  refine ⟨rfl, fun cfg st raw conf p => rfl, ?_, ?_⟩ <;>
    norm_num [runDetect, detectStep, cfg20, freshEngine, dequePush, round4, pyRound]

/-- C6: with alpha in [0,1] and every frame's average confidence in
[0,1], the smoothed confidence stays in [0,1] after every update: from
any state whose smoothed confidence is in [0,1] (the constructed state
starts it at 0), any run of detect calls keeps it in [0,1]. -/
theorem smoothed_confidence_bounded (cfg : EngineConfig)
    (ha0 : 0 ≤ cfg.ema_alpha) (ha1 : cfg.ema_alpha ≤ 1) (st : EngineState)
    (hs0 : 0 ≤ st.smoothed_confidence) (hs1 : st.smoothed_confidence ≤ 1)
    (inputs : List (ℕ × ℚ × Bool))
    (hconf : ∀ inp ∈ inputs, 0 ≤ inp.2.1 ∧ inp.2.1 ≤ 1) :
    0 ≤ (runDetect cfg st inputs).2.smoothed_confidence
      ∧ (runDetect cfg st inputs).2.smoothed_confidence ≤ 1 := by
  induction inputs generalizing st with
  | nil => exact ⟨hs0, hs1⟩
  | cons x xs ih =>
      have hx := hconf x (List.mem_cons_self x xs)
      have hstep := ema_step_bounds ha0 ha1 hx.1 hx.2 hs0 hs1
      have h2 : ((detectStep cfg st x.1 x.2.1 x.2.2).2).smoothed_confidence
          = cfg.ema_alpha * x.2.1 + (1 - cfg.ema_alpha) * st.smoothed_confidence := rfl
      rw [runDetect_state_cons]
      exact ih _ (by rw [h2]; exact hstep.1) (by rw [h2]; exact hstep.2)
        (fun inp hm => hconf inp (List.mem_cons_of_mem x hm))

/-- Witness for C6 at the default configuration, a fresh engine and one
frame of confidence one half. -/
theorem smoothed_confidence_bounded_witness :
    (0 ≤ cfg20.ema_alpha ∧ cfg20.ema_alpha ≤ 1
      ∧ 0 ≤ freshEngine.smoothed_confidence ∧ freshEngine.smoothed_confidence ≤ 1
      ∧ (∀ inp ∈ [((1:ℕ), (1:ℚ)/2, false)], 0 ≤ inp.2.1 ∧ inp.2.1 ≤ 1))
    ∧ (0 ≤ (runDetect cfg20 freshEngine [(1, 1/2, false)]).2.smoothed_confidence
      ∧ (runDetect cfg20 freshEngine [(1, 1/2, false)]).2.smoothed_confidence ≤ 1) :=
  ⟨⟨by norm_num [cfg20], by norm_num [cfg20], by norm_num [freshEngine],
    by norm_num [freshEngine], by intro inp hm; simp at hm; subst hm; norm_num⟩,
   smoothed_confidence_bounded cfg20 (by norm_num [cfg20]) (by norm_num [cfg20])
     freshEngine (by norm_num [freshEngine]) (by norm_num [freshEngine])
     [(1, 1/2, false)] (by intro inp hm; simp at hm; subst hm; norm_num)⟩

/-- C9: a photo-mode detect call always reports confirmed with the raw
count as survivor count (zero included), and still appends the frame's
entry to the confirmation window; concretely, after fourteen streaming
detection frames, a photo frame's appended entry makes a later
streaming frame confirmed where the same run without the photo frame is
not. -/
theorem photo_mode_bypass :
    (∀ (cfg : EngineConfig) (st : EngineState) (raw : ℕ) (conf : ℚ),
        (detectStep cfg st raw conf true).1.confirmed = true
        ∧ (detectStep cfg st raw conf true).1.survivor_count = (raw : ℤ)
        ∧ ((detectStep cfg st raw conf true).2).history
            = dequePush cfg.confirmation_window st.history (raw, conf))
    ∧ (runDetect cfg20 freshEngine c9WithPhoto).1.confirmed = true
    ∧ (runDetect cfg20 freshEngine c9WithoutPhoto).1.confirmed = false := by
  refine ⟨fun cfg st raw conf => ⟨rfl, rfl, rfl⟩, ?_, ?_⟩ <;>
    norm_num [runDetect, detectStep, c9WithPhoto, c9WithoutPhoto, cfg20,
      freshEngine, dequePush, npMedian, sortAsc, insertAsc, pyInt, round4,
      pyRound, List.replicate, List.cons_ne_nil, Int.floor_natCast]

/-- Counterexample to C4 as stated: constructing a DetectionEngine with
the non-positive window capacity 0 is not rejected — construction
succeeds (collections.deque accepts maxlen 0). -/
theorem construction_zero_window_accepted :
    constructionOk (mkDetectionEngine 0 15 (3/10)) = true := rfl

/-- C4 as amended: construction performs no configuration validation of
its own — it succeeds exactly when the window capacity is non-negative
(only a negative capacity fails, through the deque's own maxlen check,
so capacity 0 is accepted) — and the risk-fusion weights are a fixed
class constant summing to 1.0 that no code ever checks. -/
theorem construction_no_validation :
    (∀ (w : ℤ) (m : ℕ) (a : ℚ),
        constructionOk (mkDetectionEngine w m a) = decide (0 ≤ w))
    ∧ (RiskAgent.WEIGHTS.map Prod.snd).sum = 1 := by
  constructor
  · intro w m a
    unfold mkDetectionEngine constructionOk
    split_ifs with h
    · simp [not_le.mpr h]
    · simp [not_lt.mp h]
  · norm_num [RiskAgent.WEIGHTS]

/-- C3: whenever a frame image is supplied, the primary density
0.6*count_ratio + 0.4*area_ratio is below 0.1 and the measured edge
density exceeds 0.4, estimate returns edge_density * 0.8 (reported, as
everywhere in this module, rounded to four decimal places). -/
theorem crowd_edge_fallback (frame_area : ℤ) (max_expected_persons : ℕ)
    (bboxes : List Bbox) (frame_shape : Option (ℕ × ℕ)) (fr : FrameEdges)
    (hlow : CrowdMonitor.primaryDensity frame_area max_expected_persons bboxes frame_shape
      < 10/100)
    (hedge : 40/100 < CrowdMonitor.edgeDensity (some fr)) :
    (CrowdMonitor.estimate frame_area max_expected_persons bboxes frame_shape
        (some fr)).crowd_density
      = round4 (CrowdMonitor.edgeDensity (some fr) * (80/100)) := by
  show round4 (if CrowdMonitor.primaryDensity frame_area max_expected_persons bboxes
        frame_shape < 10/100 ∧ 40/100 < CrowdMonitor.edgeDensity (some fr) then
      CrowdMonitor.edgeDensity (some fr) * (80/100)
    else CrowdMonitor.primaryDensity frame_area max_expected_persons bboxes frame_shape) = _
  rw [if_pos (And.intro hlow hedge)]

/-- Witness for C3: zero detections, a 100×100 frame whose external
edge detector marks 900 pixels (edge density exactly 0.9); the returned
density is 0.72, not 0. -/
theorem crowd_edge_fallback_witness :
    (CrowdMonitor.primaryDensity (640*480) 20 [] none < 10/100
      ∧ 40/100 < CrowdMonitor.edgeDensity (some { h := 100, w := 100, edge_pixels := 900 })
      ∧ CrowdMonitor.edgeDensity (some { h := 100, w := 100, edge_pixels := 900 }) = 90/100)
    ∧ (CrowdMonitor.estimate (640*480) 20 [] none
        (some { h := 100, w := 100, edge_pixels := 900 })).crowd_density = 72/100 :=
  ⟨⟨by norm_num [CrowdMonitor.primaryDensity],
    by norm_num [CrowdMonitor.edgeDensity],
    by norm_num [CrowdMonitor.edgeDensity]⟩,
   by
    rw [crowd_edge_fallback (640*480) 20 [] none { h := 100, w := 100, edge_pixels := 900 }
      (by norm_num [CrowdMonitor.primaryDensity]) (by norm_num [CrowdMonitor.edgeDensity])]
    norm_num [CrowdMonitor.edgeDensity, round4, pyRound]⟩

lemma pyRound_intCast (m : ℤ) : pyRound (m : ℚ) = m := by
  unfold pyRound
  rw [Int.floor_intCast]
  norm_num

lemma round4_zero : round4 0 = 0 := by
  unfold round4
  norm_num [pyRound]

lemma round4_idem (q : ℚ) : round4 (round4 q) = round4 q := by
  unfold round4
  rw [div_mul_cancel₀ _ (by norm_num : (10000:ℚ) ≠ 0), pyRound_intCast]

lemma pyRound_nonneg {q : ℚ} (h : 0 ≤ q) : 0 ≤ pyRound q := by
  unfold pyRound
  have h0 : (0:ℤ) ≤ ⌊q⌋ := Int.floor_nonneg.mpr h
  split_ifs <;> omega

lemma pyRound_le_intCast {q : ℚ} {n : ℤ} (h : q ≤ (n : ℚ)) : pyRound q ≤ n := by
  have hf : ⌊q⌋ ≤ n := by
    rw [show n = ⌊(n:ℚ)⌋ from (Int.floor_intCast n).symm]
    exact Int.floor_le_floor h
  have hfq : (⌊q⌋ : ℚ) ≤ q := Int.floor_le q
  unfold pyRound
  split_ifs with h1 h2 h3
  · exact hf
  · have hr : 1/2 ≤ q - ⌊q⌋ := le_of_lt h2
    have : (⌊q⌋ : ℚ) < n := by linarith
    have : ⌊q⌋ < n := by exact_mod_cast this
    omega
  · exact hf
  · have hr : 1/2 ≤ q - ⌊q⌋ := not_lt.mp h1
    have : (⌊q⌋ : ℚ) < n := by linarith
    have : ⌊q⌋ < n := by exact_mod_cast this
    omega

lemma round4_bounds {q : ℚ} (h0 : 0 ≤ q) (h1 : q ≤ 1) :
    0 ≤ round4 q ∧ round4 q ≤ 1 := by
  unfold round4
  constructor
  · exact div_nonneg (by exact_mod_cast pyRound_nonneg (by positivity)) (by norm_num)
  · rw [div_le_one (by norm_num)]
    have : pyRound (q * 10000) ≤ (10000:ℤ) :=
      pyRound_le_intCast (by push_cast; linarith)
    exact_mod_cast this

lemma foldl_max_round4_fixed :
    ∀ (l : List ℚ) (acc : ℚ), round4 acc = acc → (∀ c ∈ l, round4 c = c) →
      round4 (l.foldl max acc) = l.foldl max acc := by
  intro l
  induction l with
  | nil => intro acc ha _; exact ha
  | cons c cs ih =>
      intro acc ha hl
      simp only [List.foldl_cons]
      refine ih _ ?_ (fun x hx => hl x (List.mem_cons_of_mem c hx))
      rcases max_choice acc c with h | h <;> rw [h]
      · exact ha
      · exact hl c (List.mem_cons_self c cs)

lemma maxD0_round4_fixed {l : List ℚ} (h : ∀ c ∈ l, round4 c = c) :
    round4 (maxD0 l) = maxD0 l := by
  cases l with
  | nil => exact round4_zero
  | cons c cs =>
      exact foldl_max_round4_fixed cs c (h c (List.mem_cons_self c cs))
        (fun x hx => h x (List.mem_cons_of_mem c hx))

namespace BreathingAnalyzer

lemma subjectConf_round4_fixed (cfg : Config) (mag : List ℚ → List ℚ)
    (buf : List ℚ) : round4 (subjectConf cfg mag buf) = subjectConf cfg mag buf := by
  unfold subjectConf
  split_ifs
  · exact round4_zero
  · exact round4_idem _

lemma subjectSpec_round4_fixed (cfg : Config) (mag : List ℚ → List ℚ)
    (buf0 : List ℚ) (s : Option ℚ) :
    round4 (subjectSpec cfg mag buf0 s) = subjectSpec cfg mag buf0 s := by
  cases s with
  | none => exact round4_zero
  | some v => exact subjectConf_round4_fixed cfg mag _

lemma bandEnergy_nonneg {l : List ℚ} (h : ∀ x ∈ l, 0 ≤ x) (n : ℕ) (fps : ℚ) :
    0 ≤ bandEnergy l n fps := by
  unfold bandEnergy
  refine List.sum_nonneg ?_
  intro x hx
  simp only [List.mem_map] at hx
  obtain ⟨k, _, rfl⟩ := hx
  by_cases hlt : k < l.length
  · rw [List.getD_eq_getElem l 0 hlt]
    exact h _ (List.getElem_mem hlt)
  · rw [List.getD_eq_default l 0 (le_of_not_lt hlt)]

lemma totalEnergy_pos {l : List ℚ} (h : ∀ x ∈ l, 0 ≤ x) : 0 < totalEnergy l := by
  unfold totalEnergy
  have h1 : 0 ≤ (l.drop 1).sum :=
    List.sum_nonneg (fun x hx => h x (List.mem_of_mem_drop hx))
  have h2 : (0:ℚ) < 1/1000000000 := by norm_num
  linarith

lemma subjectFFT_bounds (cfg : Config) (mag : List ℚ → List ℚ)
    (hmag : ∀ s x, x ∈ mag s → 0 ≤ x) (buf : List ℚ) :
    0 ≤ subjectFFT cfg mag buf ∧ subjectFFT cfg mag buf ≤ 1 := by
  unfold subjectFFT
  constructor
  · exact le_min
      (div_nonneg (bandEnergy_nonneg (hmag _) _ _) (totalEnergy_pos (hmag _)).le)
      zero_le_one
  · exact min_le_right _ 1

lemma subjectSpec_bounds (cfg : Config) (mag : List ℚ → List ℚ)
    (hmag : ∀ s x, x ∈ mag s → 0 ≤ x) (buf0 : List ℚ) (s : Option ℚ) :
    0 ≤ subjectSpec cfg mag buf0 s ∧ subjectSpec cfg mag buf0 s ≤ 1 := by
  cases s with
  | none => exact ⟨le_refl 0, zero_le_one⟩
  | some v =>
      show 0 ≤ subjectConf cfg mag _ ∧ subjectConf cfg mag _ ≤ 1
      unfold subjectConf
      split_ifs
      · exact ⟨le_refl 0, zero_le_one⟩
      · exact round4_bounds (subjectFFT_bounds cfg mag hmag _).1
          (subjectFFT_bounds cfg mag hmag _).2

lemma analyseLoop_nil (cfg : Config) (mag : List ℚ → List ℚ) (idx : ℕ)
    (bufs : ℕ → List ℚ) : analyseLoop cfg mag idx bufs [] = ([], bufs) := rfl

lemma analyseLoop_none (cfg : Config) (mag : List ℚ → List ℚ) (idx : ℕ)
    (bufs : ℕ → List ℚ) (rest : List (Option ℚ)) :
    analyseLoop cfg mag idx bufs (none :: rest)
      = ({ person_id := idx, breathing_conf := 0 }
          :: (analyseLoop cfg mag (idx + 1) bufs rest).1,
         (analyseLoop cfg mag (idx + 1) bufs rest).2) := rfl

lemma analyseLoop_some (cfg : Config) (mag : List ℚ → List ℚ) (idx : ℕ)
    (bufs : ℕ → List ℚ) (v : ℚ) (rest : List (Option ℚ)) :
    analyseLoop cfg mag idx bufs (some v :: rest)
      = ({ person_id := idx,
           breathing_conf := subjectConf cfg mag (dequePush cfg.buffer_size (bufs idx) v) }
          :: (analyseLoop cfg mag (idx + 1)
              (fun i => if i = idx then dequePush cfg.buffer_size (bufs idx) v else bufs i)
              rest).1,
         (analyseLoop cfg mag (idx + 1)
            (fun i => if i = idx then dequePush cfg.buffer_size (bufs idx) v else bufs i)
            rest).2) := rfl

lemma enumFrom_map_bufs_congr (f : List ℚ → Option ℚ → ℚ)
    (rest : List (Option ℚ)) :
    ∀ (j : ℕ) (b1 b2 : ℕ → List ℚ), (∀ i, j ≤ i → b1 i = b2 i) →
      (rest.enumFrom j).map
          (fun p => PersonConf.mk p.1 (f (b1 p.1) p.2))
        = (rest.enumFrom j).map
          (fun p => PersonConf.mk p.1 (f (b2 p.1) p.2)) := by
  induction rest with
  | nil => intro j b1 b2 _; rfl
  | cons s r ih =>
      intro j b1 b2 hb
      simp only [List.enumFrom_cons, List.map]
      rw [hb j (le_refl j), ih (j+1) b1 b2 (fun i hi => hb i (by omega))]

lemma analyseLoop_per (cfg : Config) (mag : List ℚ → List ℚ) :
    ∀ (samples : List (Option ℚ)) (idx : ℕ) (bufs : ℕ → List ℚ),
      (analyseLoop cfg mag idx bufs samples).1
        = (samples.enumFrom idx).map
            (fun p => PersonConf.mk p.1 (subjectSpec cfg mag (bufs p.1) p.2)) := by
  intro samples
  induction samples with
  | nil => intro idx bufs; rfl
  | cons s rest ih =>
      intro idx bufs
      cases s with
      | none =>
          rw [analyseLoop_none]
          simp only [List.enumFrom_cons, List.map]
          rw [ih (idx+1) bufs]
          rfl
      | some v =>
          rw [analyseLoop_some]
          simp only [List.enumFrom_cons, List.map]
          rw [ih (idx+1) (fun i =>
            if i = idx then dequePush cfg.buffer_size (bufs idx) v else bufs i)]
          have hh : subjectSpec cfg mag (bufs idx) (some v)
              = subjectConf cfg mag (dequePush cfg.buffer_size (bufs idx) v) := rfl
          rw [hh]
          rw [enumFrom_map_bufs_congr (subjectSpec cfg mag) rest (idx+1)
            (fun i => if i = idx then dequePush cfg.buffer_size (bufs idx) v else bufs i)
            bufs (fun i hi => if_neg (show ¬(i = idx) by omega))]

/-- C7: in every analyse call, the per-subject entries are exactly, in
subject order, the confidence computed from that subject's own ring
buffer — 0 for an empty chest ROI, 0 when the buffer after this frame's
append holds fewer than half of its capacity, otherwise the
breathing-band (0.15–0.50 Hz) spectral energy over total non-DC energy
clamped to [0,1] (a value always in [0,1] for any true magnitude
spectrum, which is non-negative) — and the overall breathing confidence
returned is exactly the maximum of the per-subject confidences, 0 when
the subject list is empty. -/
theorem analyse_insufficient_band_max (cfg : Config) (mag : List ℚ → List ℚ)
    (hmag : ∀ s x, x ∈ mag s → 0 ≤ x) (bufs : ℕ → List ℚ)
    (samples : List (Option ℚ)) :
    ((analyse cfg mag bufs samples).1.2
        = samples.enum.map
            (fun p => PersonConf.mk p.1 (subjectSpec cfg mag (bufs p.1) p.2)))
    ∧ (∀ buf0 : List ℚ, buf0.length < cfg.buffer_size / 2 →
        subjectConf cfg mag buf0 = 0)
    ∧ (∀ p ∈ (analyse cfg mag bufs samples).1.2,
        0 ≤ p.breathing_conf ∧ p.breathing_conf ≤ 1)
    ∧ (analyse cfg mag bufs samples).1.1
        = maxD0 ((analyse cfg mag bufs samples).1.2.map
            (fun p => p.breathing_conf)) := by
  have hper : (analyse cfg mag bufs samples).1.2
      = samples.enum.map
          (fun p => PersonConf.mk p.1 (subjectSpec cfg mag (bufs p.1) p.2)) :=
    analyseLoop_per cfg mag samples 0 bufs
  refine ⟨hper, ?_, ?_, ?_⟩
  · intro buf0 hb
    unfold subjectConf
    rw [if_pos hb]
  · intro p hp
    rw [hper] at hp
    simp only [List.mem_map] at hp
    obtain ⟨q, _, rfl⟩ := hp
    exact subjectSpec_bounds cfg mag hmag _ _
  · show round4 (maxD0 _) = maxD0 _
    apply maxD0_round4_fixed
    intro c hc
    rw [analyseLoop_per cfg mag samples 0 bufs] at hc
    simp only [List.map_map, List.mem_map] at hc
    obtain ⟨q, _, rfl⟩ := hc
    exact subjectSpec_round4_fixed cfg mag _ _

/-- Witness for C7: a two-subject frame (one real sample, one empty
ROI) against an all-ones toy spectrum. -/
theorem analyse_insufficient_band_max_witness :
    (∀ s x, x ∈ magOnes s → 0 ≤ x)
    ∧ (analyse { fps := 3/5, buffer_size := 2 } magOnes (fun _ => [3])
          [some 5, none]).1.1
        = maxD0 (((analyse { fps := 3/5, buffer_size := 2 } magOnes (fun _ => [3])
            [some 5, none]).1.2).map (fun p => p.breathing_conf)) :=
  ⟨fun s x hx => by rw [List.eq_of_mem_replicate hx]; norm_num,
   (analyse_insufficient_band_max { fps := 3/5, buffer_size := 2 } magOnes
      (fun s x hx => by rw [List.eq_of_mem_replicate hx]; norm_num)
      (fun _ => [3]) [some 5, none]).2.2.2⟩

end BreathingAnalyzer

namespace MicroMotionDetector

/-- C8: the first detect call on any fresh MicroMotionDetector instance
returns motion confidence 0 with zero diff and flow scores, whatever
the input frame and subject regions, and merely stores the frame as the
new baseline. -/
theorem first_detect_zero {Frame : Type} (cfg : Config)
    (grayBlur : Frame → Gray) (flowMag : Gray → Gray → Gray) (frame : Frame)
    (bboxes : List Bbox) :
    detect cfg grayBlur flowMag freshState frame bboxes
      = ({ micro_motion_confidence := 0, diff_score := 0, flow_score := 0,
           motion_mask := none },
         { prev_gray := some (grayBlur frame) }) := rfl

lemma detect_ignores_flow_thresh {Frame : Type} (d f1 f2 : ℚ) (m : ℕ)
    (grayBlur : Frame → Gray) (flowMag : Gray → Gray → Gray) (st : State)
    (frame : Frame) (bboxes : List Bbox) :
    detect { diff_threshold := d, flow_mag_thresh := f1, min_motion_pixels := m }
        grayBlur flowMag st frame bboxes
      = detect { diff_threshold := d, flow_mag_thresh := f2, min_motion_pixels := m }
        grayBlur flowMag st frame bboxes := by
  obtain ⟨p⟩ := st
  cases p <;> rfl

/-- C10: detect never reads the flow_magnitude_threshold constructor
parameter — two instances differing only in it produce identical result
sequences and final state on every input sequence. -/
theorem flow_threshold_never_read {Frame : Type} (c1 c2 : Config)
    (hd : c1.diff_threshold = c2.diff_threshold)
    (hm : c1.min_motion_pixels = c2.min_motion_pixels)
    (grayBlur : Frame → Gray) (flowMag : Gray → Gray → Gray) (st : State)
    (inputs : List (Frame × List Bbox)) :
    runMotion c1 grayBlur flowMag st inputs
      = runMotion c2 grayBlur flowMag st inputs := by
  obtain ⟨d1, f1, m1⟩ := c1
  obtain ⟨d2, f2, m2⟩ := c2
  have hd2 : d1 = d2 := hd
  have hm2 : m1 = m2 := hm
  subst hd2
  subst hm2
  induction inputs generalizing st with
  | nil => rfl
  | cons x rest ih =>
      simp only [runMotion]
      rw [detect_ignores_flow_thresh d1 f1 f2 m1 grayBlur flowMag st x.1 x.2, ih]

/-- Witness for C10: two concrete configurations differing only in the
flow threshold, run over two concrete frames. -/
theorem flow_threshold_never_read_witness :
    (cfgFlowLow.diff_threshold = cfgFlowHigh.diff_threshold
      ∧ cfgFlowLow.min_motion_pixels = cfgFlowHigh.min_motion_pixels)
    ∧ runMotion cfgFlowLow id (fun _ _ => [[1]]) freshState
        [([[0]], []), ([[3]], [])]
      = runMotion cfgFlowHigh id (fun _ _ => [[1]]) freshState
        [([[0]], []), ([[3]], [])] :=
  ⟨⟨rfl, rfl⟩,
   flow_threshold_never_read cfgFlowLow cfgFlowHigh rfl rfl id
     (fun _ _ => [[1]]) freshState [([[0]], []), ([[3]], [])]⟩

end MicroMotionDetector

end ResQVision
